import Mathlib

/-!
Verification of the KServe `v1alpha1` ServingRuntime schema
(`pkg/apis/serving/v1alpha1/servingruntime_types.go`).

The Go source defines the data shapes of the `ServingRuntime` and
`ClusterServingRuntime` custom resources plus one accessor, `IsDisabled`.
Optional pointer fields (`*bool`, `*string`, `*uint16`, `*Struct`) are
embedded as `Option`; Go slices as `List`; Go maps as association lists.
External Kubernetes library types (`corev1.*`, `metav1.*`) are not part of
this repository; following the spec, they are modelled by their serialized
JSON document value.
-/

namespace KServeV1alpha1

/-- A JSON document, the persisted representation of the resources.
Objects keep their fields as an ordered association list, matching the
order in which a serializer emits them. -/
inductive Json where
  | null : Json
  | bool (b : Bool) : Json
  | num (n : Int) : Json
  | str (s : String) : Json
  | arr (xs : List Json) : Json
  | obj (fields : List (String × Json)) : Json

/-- `Framework` declares a supported model format/framework.
`Version` is an optional pointer (`*string`) in the source. -/
structure Framework where
  Name : String
  Version : Option String
deriving DecidableEq, Repr

/-- `Container`, the deployable unit descriptor.  The fields typed by the
external `corev1` package (`ResourceRequirements`, `EnvVar`, `PullPolicy`,
`Probe`) are modelled by their JSON value; `PullPolicy` is a string type in
`corev1`, so it is a `String` here. -/
structure Container where
  Name : String
  Image : String
  Command : List String
  Args : List String
  Resources : Json
  Env : List Json
  ImagePullPolicy : String
  WorkingDir : String
  LivenessProbe : Option Json
  ReadinessProbe : Option Json

/-- `StorageHelper` configuration.  `Disabled` is a plain (non-pointer)
`bool` in the source. -/
structure StorageHelper where
  Disabled : Bool
deriving DecidableEq, Repr

/-- `ServingRuntimePodSpec`: the containers plus pod-level placement
constraints.  `NodeSelector` is a `map[string]string`, modelled as an
association list; `Affinity` and `Toleration` are external `corev1` types
modelled by their JSON value. -/
structure ServingRuntimePodSpec where
  Containers : List Container
  NodeSelector : List (String × String)
  Affinity : Option Json
  Tolerations : List Json

/-- `ServerType`: per the source annotation
`+kubebuilder:validation:Enum=triton;mlserver` and the spec, a closed
enumeration with exactly the members `triton` and `mlserver`. -/
inductive ServerType where
  | triton : ServerType
  | mlserver : ServerType
deriving DecidableEq, Repr

/-- The string stored for each `ServerType` constant in the source. -/
def ServerType.toString : ServerType → String
  | .triton => "triton"
  | .mlserver => "mlserver"

/-- `BuiltInAdapter`: built-in runtime adapter details. -/
structure BuiltInAdapter where
  ServerType : ServerType
  RuntimeManagementPort : Int
  MemBufferBytes : Int
  ModelLoadingTimeoutMillis : Int
deriving DecidableEq, Repr

/-- `ServingRuntimeSpec`, the full descriptor.  The Go source embeds
`ServingRuntimePodSpec` inline; the embedding is a named field here, with
promotion helpers below.  `Replicas` is a `*uint16`. -/
structure ServingRuntimeSpec where
  SupportedModelTypes : List Framework
  Disabled : Option Bool
  PodSpec : ServingRuntimePodSpec
  GrpcMultiModelManagementEndpoint : Option String
  GrpcDataEndpoint : Option String
  HTTPDataEndpoint : Option String
  Replicas : Option (Fin 65536)
  StorageHelper : Option KServeV1alpha1.StorageHelper
  BuiltInAdapter : Option KServeV1alpha1.BuiltInAdapter

/-- `ServingRuntimeStatus` is empty in the source. -/
structure ServingRuntimeStatus where
deriving DecidableEq, Repr

/-- Go field promotion of the inlined `ServingRuntimePodSpec.Containers`. -/
def ServingRuntimeSpec.Containers (s : ServingRuntimeSpec) : List Container :=
  s.PodSpec.Containers

/-- `IsDisabled`, embedding
`return srSpec.Disabled != nil && *srSpec.Disabled`:
the nil check followed by the dereference. -/
def ServingRuntimeSpec.IsDisabled (srSpec : ServingRuntimeSpec) : Bool :=
  match srSpec.Disabled with
  | none => false
  | some b => b

/-- Namespaced `ServingRuntime`: identity metadata (external `metav1`
types, modelled by their JSON value) plus spec and status. -/
structure ServingRuntime where
  TypeMeta : Json
  ObjectMeta : Json
  Spec : ServingRuntimeSpec
  Status : ServingRuntimeStatus

/-- Cluster-scoped `ClusterServingRuntime`: the same metadata, spec and
status fields as `ServingRuntime`. -/
structure ClusterServingRuntime where
  TypeMeta : Json
  ObjectMeta : Json
  Spec : ServingRuntimeSpec
  Status : ServingRuntimeStatus

/-- Repackage a namespaced runtime as a cluster-scoped one, field by
field. -/
def ServingRuntime.toCluster (r : ServingRuntime) : ClusterServingRuntime :=
  { TypeMeta := r.TypeMeta, ObjectMeta := r.ObjectMeta
    Spec := r.Spec, Status := r.Status }

/-- Repackage a cluster-scoped runtime as a namespaced one, field by
field. -/
def ClusterServingRuntime.toNamespaced (c : ClusterServingRuntime) : ServingRuntime :=
  { TypeMeta := c.TypeMeta, ObjectMeta := c.ObjectMeta
    Spec := c.Spec, Status := c.Status }

/-! ### Go evaluation model for the `IsDisabled` body

`IsDisabled` evaluates `srSpec.Disabled != nil && *srSpec.Disabled`.  To
reason about nil-dereference safety we model a Go boolean expression as
either a value or a runtime panic, with `&&` short-circuiting. -/

/-- Outcome of evaluating a Go expression: a value, or a runtime panic. -/
inductive GoEval (α : Type) where
  | ok (a : α) : GoEval α
  | panicked : GoEval α
deriving DecidableEq, Repr

/-- Dereference of a `*bool`: panics exactly when the pointer is nil. -/
def goDerefBool : Option Bool → GoEval Bool
  | none => .panicked
  | some b => .ok b

/-- Go `&&`: the right operand is evaluated only when the left one
yields `true`; a panic propagates. -/
def goAnd (a : GoEval Bool) (b : Unit → GoEval Bool) : GoEval Bool :=
  match a with
  | .panicked => .panicked
  | .ok false => .ok false
  | .ok true => b ()

/-- The body of `IsDisabled` under the Go evaluation model:
`srSpec.Disabled != nil && *srSpec.Disabled`. -/
def ServingRuntimeSpec.isDisabledEval (srSpec : ServingRuntimeSpec) : GoEval Bool :=
  goAnd (.ok srSpec.Disabled.isSome) (fun _ => goDerefBool srSpec.Disabled)

/-- Modelled from the spec: the storage-helper toggle.  The source has no
accessor for it; the spec states the helper "is enabled unless explicitly
disabled" and that "absence of this entity implies the helper is
enabled". -/
def ServingRuntimeSpec.storageHelperDisabled (s : ServingRuntimeSpec) : Bool :=
  match s.StorageHelper with
  | none => false
  | some h => h.Disabled

/-! ### Persisted JSON form

Modelled from the spec: serialization to the persisted document is done by
the Kubernetes API machinery (Go `encoding/json`), which is not part of
this repository; the json struct tags in the source fix the field names
and the `omitempty` markings.  An `omitempty` field is omitted when its
value is the Go zero value of its type (empty string, zero number, `false`,
nil pointer, empty slice or map); fields of struct type are always
emitted.  Decoding an absent field leaves the Go zero value. -/

/-- First field with the given key in an object field list. -/
def lookupField (k : String) : List (String × Json) → Option Json
  | [] => none
  | (k2, v) :: rest => if k2 = k then some v else lookupField k rest

/-- A field that is always emitted. -/
def fieldAlways (k : String) (v : Json) : List (String × Json) :=
  [(k, v)]

/-- A pointer field with `omitempty`: omitted exactly when nil. -/
def fieldOpt (k : String) : Option Json → List (String × Json)
  | none => []
  | some v => [(k, v)]

/-- A string field with `omitempty`: omitted exactly when empty. -/
def fieldOmitStr (k : String) (s : String) : List (String × Json) :=
  if s = "" then [] else [(k, Json.str s)]

/-- A slice field with `omitempty`: omitted exactly when empty. -/
def fieldOmitList (k : String) (xs : List Json) : List (String × Json) :=
  if xs.isEmpty then [] else [(k, Json.arr xs)]

/-- An integer field with `omitempty`: omitted exactly when zero. -/
def fieldOmitInt (k : String) (n : Int) : List (String × Json) :=
  if n = 0 then [] else [(k, Json.num n)]

/-- A boolean field with `omitempty`: omitted exactly when false. -/
def fieldOmitBool (k : String) (b : Bool) : List (String × Json) :=
  if b then [(k, Json.bool true)] else []

/-- A map field with `omitempty`: omitted exactly when empty. -/
def fieldOmitObj (k : String) (fs : List (String × Json)) : List (String × Json) :=
  if fs.isEmpty then [] else [(k, Json.obj fs)]

/-- Decode an optional string pointer field: absent means nil. -/
def getOptStr (o : List (String × Json)) (k : String) : Option (Option String) :=
  match lookupField k o with
  | none => some none
  | some (Json.str s) => some (some s)
  | some _ => none

/-- Decode an optional bool pointer field: absent means nil. -/
def getOptBool (o : List (String × Json)) (k : String) : Option (Option Bool) :=
  match lookupField k o with
  | none => some none
  | some (Json.bool b) => some (some b)
  | some _ => none

/-- Decode a string field: absent leaves the zero value `""`. -/
def getStrD (o : List (String × Json)) (k : String) : Option String :=
  match lookupField k o with
  | none => some ""
  | some (Json.str s) => some s
  | some _ => none

/-- Decode a bool field: absent leaves the zero value `false`. -/
def getBoolD (o : List (String × Json)) (k : String) : Option Bool :=
  match lookupField k o with
  | none => some false
  | some (Json.bool b) => some b
  | some _ => none

/-- Decode an int field: absent leaves the zero value `0`. -/
def getIntD (o : List (String × Json)) (k : String) : Option Int :=
  match lookupField k o with
  | none => some 0
  | some (Json.num n) => some n
  | some _ => none

/-- Decode a `*uint16` field: absent means nil; a present number must be
in the `uint16` range. -/
def getOptUint16 (o : List (String × Json)) (k : String) : Option (Option (Fin 65536)) :=
  match lookupField k o with
  | none => some none
  | some (Json.num n) =>
      if h : 0 ≤ n ∧ n < 65536 then
        some (some ⟨n.toNat, by omega⟩)
      else none
  | some _ => none

/-- Decode a field holding an opaque external value: absent means nil. -/
def getOptJson (o : List (String × Json)) (k : String) : Option (Option Json) :=
  match lookupField k o with
  | none => some none
  | some j => some (some j)

/-- Decode a required field holding an opaque external value. -/
def getJson (o : List (String × Json)) (k : String) : Option Json :=
  lookupField k o

/-- Decode a slice field holding opaque external values: absent means
empty. -/
def getJsonListD (o : List (String × Json)) (k : String) : Option (List Json) :=
  match lookupField k o with
  | none => some []
  | some (Json.arr xs) => some xs
  | some _ => none

/-- Decode each element of an array. -/
def decList (dec : Json → Option α) : List Json → Option (List α)
  | [] => some []
  | j :: rest => do
      let a ← dec j
      let as ← decList dec rest
      some (a :: as)

/-- Decode a `[]string` field: absent means empty. -/
def getStrListD (o : List (String × Json)) (k : String) : Option (List String) :=
  match lookupField k o with
  | none => some []
  | some (Json.arr xs) =>
      decList (fun j => match j with | Json.str s => some s | _ => none) xs
  | some _ => none

/-- Decode object fields whose values must all be strings. -/
def decStrFields : List (String × Json) → Option (List (String × String))
  | [] => some []
  | (k, Json.str s) :: rest => (decStrFields rest).map (fun l => (k, s) :: l)
  | _ => none

/-- Decode a `map[string]string` field: absent means empty. -/
def getStrMapD (o : List (String × Json)) (k : String) : Option (List (String × String)) :=
  match lookupField k o with
  | none => some []
  | some (Json.obj fs) => decStrFields fs
  | some _ => none

theorem lookupField_nil (k : String) : lookupField k [] = none := rfl

theorem lookupField_append (k : String) (l1 l2 : List (String × Json)) :
    lookupField k (l1 ++ l2) = (lookupField k l1).or (lookupField k l2) := by
  induction l1 with
  | nil => simp [lookupField]
  | cons p rest ih =>
      obtain ⟨k2, v⟩ := p
      by_cases h : k2 = k <;> simp [lookupField, h, ih]

theorem lookupField_fieldAlways (k k2 : String) (v : Json) :
    lookupField k (fieldAlways k2 v) = if k2 = k then some v else none := by
  simp [fieldAlways, lookupField]

theorem lookupField_fieldOpt (k k2 : String) (o : Option Json) :
    lookupField k (fieldOpt k2 o) = if k2 = k then o else none := by
  cases o <;> simp [fieldOpt, lookupField]

theorem lookupField_fieldOmitStr (k k2 s : String) :
    lookupField k (fieldOmitStr k2 s) =
      if k2 = k then (if s = "" then none else some (Json.str s)) else none := by
  by_cases h : s = "" <;> simp [fieldOmitStr, lookupField, h]

theorem lookupField_fieldOmitList (k k2 : String) (xs : List Json) :
    lookupField k (fieldOmitList k2 xs) =
      if k2 = k then (if xs.isEmpty then none else some (Json.arr xs)) else none := by
  by_cases h : xs.isEmpty <;> simp [fieldOmitList, lookupField, h]

theorem lookupField_fieldOmitInt (k k2 : String) (n : Int) :
    lookupField k (fieldOmitInt k2 n) =
      if k2 = k then (if n = 0 then none else some (Json.num n)) else none := by
  by_cases h : n = 0 <;> simp [fieldOmitInt, lookupField, h]

theorem lookupField_fieldOmitBool (k k2 : String) (b : Bool) :
    lookupField k (fieldOmitBool k2 b) =
      if k2 = k then (if b then some (Json.bool true) else none) else none := by
  cases b <;> simp [fieldOmitBool, lookupField]

theorem lookupField_fieldOmitObj (k k2 : String) (fs : List (String × Json)) :
    lookupField k (fieldOmitObj k2 fs) =
      if k2 = k then (if fs.isEmpty then none else some (Json.obj fs)) else none := by
  by_cases h : fs.isEmpty <;> simp [fieldOmitObj, lookupField, h]

theorem isEmpty_map {α β} (f : α → β) (l : List α) :
    (l.map f).isEmpty = l.isEmpty := by
  cases l <;> rfl

/-! Getter lemmas: each computes a getter once the looked-up value is
known. -/

theorem getStrD_ifOmit (o : List (String × Json)) (k s : String)
    (h : lookupField k o = if s = "" then none else some (Json.str s)) :
    getStrD o k = some s := by
  unfold getStrD
  rw [h]
  by_cases hs : s = "" <;> simp [hs]

theorem getOptStr_of (o : List (String × Json)) (k : String) (v : Option String)
    (h : lookupField k o = v.map Json.str) :
    getOptStr o k = some v := by
  unfold getOptStr
  rw [h]
  cases v <;> simp

theorem getOptBool_of (o : List (String × Json)) (k : String) (v : Option Bool)
    (h : lookupField k o = v.map Json.bool) :
    getOptBool o k = some v := by
  unfold getOptBool
  rw [h]
  cases v <;> simp

theorem getBoolD_ifOmit (o : List (String × Json)) (k : String) (b : Bool)
    (h : lookupField k o = if b then some (Json.bool true) else none) :
    getBoolD o k = some b := by
  unfold getBoolD
  rw [h]
  cases b <;> simp

theorem getIntD_ifOmit (o : List (String × Json)) (k : String) (n : Int)
    (h : lookupField k o = if n = 0 then none else some (Json.num n)) :
    getIntD o k = some n := by
  unfold getIntD
  rw [h]
  by_cases hn : n = 0 <;> simp [hn]

theorem getJson_of (o : List (String × Json)) (k : String) (j : Json)
    (h : lookupField k o = some j) :
    getJson o k = some j := h

theorem getOptJson_of (o : List (String × Json)) (k : String) (v : Option Json)
    (h : lookupField k o = v) :
    getOptJson o k = some v := by
  unfold getOptJson
  rw [h]
  cases v <;> simp

theorem getOptUint16_of (o : List (String × Json)) (k : String) (v : Option (Fin 65536))
    (h : lookupField k o = v.map (fun n => Json.num n.val)) :
    getOptUint16 o k = some v := by
  unfold getOptUint16
  rw [h]
  cases v with
  | none => simp
  | some n =>
      have h1 : (0 : Int) ≤ n.val := Int.ofNat_nonneg n.val
      have h2 : (n.val : Int) < 65536 := by
        have := n.isLt
        omega
      simp [h1, h2]

theorem getJsonListD_ifOmit (o : List (String × Json)) (k : String) (xs : List Json)
    (h : lookupField k o = if xs.isEmpty then none else some (Json.arr xs)) :
    getJsonListD o k = some xs := by
  unfold getJsonListD
  rw [h]
  cases xs <;> simp

theorem decList_str (xs : List String) :
    decList (fun j => match j with | Json.str s => some s | _ => none)
      (xs.map Json.str) = some xs := by
  induction xs with
  | nil => rfl
  | cons x rest ih => simp [decList, ih]

theorem getStrListD_ifOmit (o : List (String × Json)) (k : String) (xs : List String)
    (h : lookupField k o =
      if xs.isEmpty then none else some (Json.arr (xs.map Json.str))) :
    getStrListD o k = some xs := by
  unfold getStrListD
  rw [h]
  cases xs with
  | nil => simp
  | cons x rest => simpa using decList_str (x :: rest)

theorem decStrFields_map (l : List (String × String)) :
    decStrFields (l.map (fun p => (p.1, Json.str p.2))) = some l := by
  induction l with
  | nil => rfl
  | cons p rest ih =>
      obtain ⟨a, b⟩ := p
      simp [decStrFields, ih]

theorem getStrMapD_ifOmit (o : List (String × Json)) (k : String)
    (l : List (String × String))
    (h : lookupField k o = if l.isEmpty then none
      else some (Json.obj (l.map (fun p => (p.1, Json.str p.2))))) :
    getStrMapD o k = some l := by
  unfold getStrMapD
  rw [h]
  cases l with
  | nil => simp
  | cons p rest => simpa using decStrFields_map (p :: rest)

theorem decList_map_of {α} (dec : Json → Option α) (enc : α → Json)
    (h : ∀ x, dec (enc x) = some x) (xs : List α) :
    decList dec (xs.map enc) = some xs := by
  induction xs with
  | nil => rfl
  | cons x rest ih => simp [decList, h, ih]

/-- Serialize a `Framework`: `name` is required, `version` is a `*string`
with `omitempty`. -/
def encFrameworkFields (f : Framework) : List (String × Json) :=
  fieldAlways "name" (Json.str f.Name) ++
    fieldOpt "version" (f.Version.map Json.str)

/-- The persisted document of a `Framework`. -/
def encFramework (f : Framework) : Json :=
  Json.obj (encFrameworkFields f)

/-- Deserialize a `Framework`. -/
def decFramework : Json → Option Framework
  | Json.obj o => do
      let n ← getStrD o "name"
      let v ← getOptStr o "version"
      some { Name := n, Version := v }
  | _ => none

/-- Serialize a `Container` per its json tags; `resources` has struct type,
so its `omitempty` tag has no effect and it is always emitted. -/
def encContainerFields (c : Container) : List (String × Json) :=
  fieldOmitStr "name" c.Name ++
    fieldOmitStr "image" c.Image ++
    fieldOmitList "command" (c.Command.map Json.str) ++
    fieldOmitList "args" (c.Args.map Json.str) ++
    fieldAlways "resources" c.Resources ++
    fieldOmitList "env" c.Env ++
    fieldOmitStr "imagePullPolicy" c.ImagePullPolicy ++
    fieldOmitStr "workingDir" c.WorkingDir ++
    fieldOpt "livenessProbe" c.LivenessProbe ++
    fieldOpt "readinessProbe" c.ReadinessProbe

/-- The persisted document of a `Container`. -/
def encContainer (c : Container) : Json :=
  Json.obj (encContainerFields c)

/-- Deserialize a `Container`. -/
def decContainer : Json → Option Container
  | Json.obj o => do
      let n ← getStrD o "name"
      let im ← getStrD o "image"
      let cmd ← getStrListD o "command"
      let args ← getStrListD o "args"
      let res ← getJson o "resources"
      let env ← getJsonListD o "env"
      let ipp ← getStrD o "imagePullPolicy"
      let wd ← getStrD o "workingDir"
      let lp ← getOptJson o "livenessProbe"
      let rp ← getOptJson o "readinessProbe"
      some { Name := n, Image := im, Command := cmd, Args := args
             Resources := res, Env := env, ImagePullPolicy := ipp
             WorkingDir := wd, LivenessProbe := lp, ReadinessProbe := rp }
  | _ => none

theorem decC_name (c : Container) :
    getStrD (encContainerFields c) "name" = some c.Name := by
  apply getStrD_ifOmit
  simp [encContainerFields, lookupField_append, lookupField_fieldOmitStr,
    lookupField_fieldOmitList, lookupField_fieldAlways, lookupField_fieldOpt,
    Option.or_none, Option.none_or, lookupField]

theorem decC_image (c : Container) :
    getStrD (encContainerFields c) "image" = some c.Image := by
  apply getStrD_ifOmit
  simp [encContainerFields, lookupField_append, lookupField_fieldOmitStr,
    lookupField_fieldOmitList, lookupField_fieldAlways, lookupField_fieldOpt,
    Option.or_none, Option.none_or, lookupField]

theorem decC_command (c : Container) :
    getStrListD (encContainerFields c) "command" = some c.Command := by
  apply getStrListD_ifOmit
  simp [encContainerFields, lookupField_append, lookupField_fieldOmitStr,
    lookupField_fieldOmitList, lookupField_fieldAlways, lookupField_fieldOpt,
    Option.or_none, Option.none_or, lookupField, isEmpty_map]

theorem decC_args (c : Container) :
    getStrListD (encContainerFields c) "args" = some c.Args := by
  apply getStrListD_ifOmit
  simp [encContainerFields, lookupField_append, lookupField_fieldOmitStr,
    lookupField_fieldOmitList, lookupField_fieldAlways, lookupField_fieldOpt,
    Option.or_none, Option.none_or, lookupField, isEmpty_map]

theorem decC_resources (c : Container) :
    getJson (encContainerFields c) "resources" = some c.Resources := by
  apply getJson_of
  simp [encContainerFields, lookupField_append, lookupField_fieldOmitStr,
    lookupField_fieldOmitList, lookupField_fieldAlways, lookupField_fieldOpt,
    Option.or_none, Option.none_or, lookupField]

theorem decC_env (c : Container) :
    getJsonListD (encContainerFields c) "env" = some c.Env := by
  apply getJsonListD_ifOmit
  simp [encContainerFields, lookupField_append, lookupField_fieldOmitStr,
    lookupField_fieldOmitList, lookupField_fieldAlways, lookupField_fieldOpt,
    Option.or_none, Option.none_or, lookupField]

theorem decC_imagePullPolicy (c : Container) :
    getStrD (encContainerFields c) "imagePullPolicy" = some c.ImagePullPolicy := by
  apply getStrD_ifOmit
  simp [encContainerFields, lookupField_append, lookupField_fieldOmitStr,
    lookupField_fieldOmitList, lookupField_fieldAlways, lookupField_fieldOpt,
    Option.or_none, Option.none_or, lookupField]

theorem decC_workingDir (c : Container) :
    getStrD (encContainerFields c) "workingDir" = some c.WorkingDir := by
  apply getStrD_ifOmit
  simp [encContainerFields, lookupField_append, lookupField_fieldOmitStr,
    lookupField_fieldOmitList, lookupField_fieldAlways, lookupField_fieldOpt,
    Option.or_none, Option.none_or, lookupField]

theorem decC_livenessProbe (c : Container) :
    getOptJson (encContainerFields c) "livenessProbe" = some c.LivenessProbe := by
  apply getOptJson_of
  simp [encContainerFields, lookupField_append, lookupField_fieldOmitStr,
    lookupField_fieldOmitList, lookupField_fieldAlways, lookupField_fieldOpt,
    Option.or_none, Option.none_or, lookupField]

theorem decC_readinessProbe (c : Container) :
    getOptJson (encContainerFields c) "readinessProbe" = some c.ReadinessProbe := by
  apply getOptJson_of
  simp [encContainerFields, lookupField_append, lookupField_fieldOmitStr,
    lookupField_fieldOmitList, lookupField_fieldAlways, lookupField_fieldOpt,
    Option.or_none, Option.none_or, lookupField]

/-- A `Container` round-trips through its persisted form. -/
theorem decContainer_enc (c : Container) :
    decContainer (encContainer c) = some c := by
  simp [decContainer, encContainer, decC_name, decC_image, decC_command,
    decC_args, decC_resources, decC_env, decC_imagePullPolicy,
    decC_workingDir, decC_livenessProbe, decC_readinessProbe]

/-- A `Framework` round-trips through its persisted form. -/
theorem decFramework_enc (f : Framework) :
    decFramework (encFramework f) = some f := by
  obtain ⟨n, v⟩ := f
  cases v <;>
    simp [decFramework, encFramework, encFrameworkFields, getStrD, getOptStr,
      lookupField_append, lookupField_fieldAlways, lookupField_fieldOpt,
      Option.or_none, Option.none_or, lookupField]

/-- Serialize a `StorageHelper`: `disabled` is a plain bool with
`omitempty`, so `false` is omitted. -/
def encStorageHelperFields (h : StorageHelper) : List (String × Json) :=
  fieldOmitBool "disabled" h.Disabled

/-- The persisted document of a `StorageHelper`. -/
def encStorageHelper (h : StorageHelper) : Json :=
  Json.obj (encStorageHelperFields h)

/-- Deserialize a `StorageHelper`: an absent `disabled` leaves `false`. -/
def decStorageHelper : Json → Option StorageHelper
  | Json.obj o => do
      let d ← getBoolD o "disabled"
      some { Disabled := d }
  | _ => none

/-- Parse a stored `ServerType` string.  Modelled from the spec: the
`+kubebuilder:validation:Enum=triton;mlserver` constraint is enforced by
the external API server at deserialization time, so any string other than
the two members is rejected. -/
def ServerType.parse : String → Option ServerType
  | "triton" => some .triton
  | "mlserver" => some .mlserver
  | _ => none

/-- Serialize a `BuiltInAdapter`: `serverType` is a string type with
`omitempty` (the two enum members are never empty), the int fields have
`omitempty`. -/
def encBuiltInAdapterFields (a : BuiltInAdapter) : List (String × Json) :=
  fieldOmitStr "serverType" a.ServerType.toString ++
    fieldOmitInt "runtimeManagementPort" a.RuntimeManagementPort ++
    fieldOmitInt "memBufferBytes" a.MemBufferBytes ++
    fieldOmitInt "modelLoadingTimeoutMillis" a.ModelLoadingTimeoutMillis

/-- The persisted document of a `BuiltInAdapter`. -/
def encBuiltInAdapter (a : BuiltInAdapter) : Json :=
  Json.obj (encBuiltInAdapterFields a)

/-- Deserialize a `BuiltInAdapter`, rejecting a `serverType` outside of
the enum. -/
def decBuiltInAdapter : Json → Option BuiltInAdapter
  | Json.obj o => do
      let stStr ← getStrD o "serverType"
      let st ← ServerType.parse stStr
      let rmp ← getIntD o "runtimeManagementPort"
      let mbb ← getIntD o "memBufferBytes"
      let mlt ← getIntD o "modelLoadingTimeoutMillis"
      some { ServerType := st, RuntimeManagementPort := rmp
             MemBufferBytes := mbb, ModelLoadingTimeoutMillis := mlt }
  | _ => none

/-- A `StorageHelper` round-trips through its persisted form; in
particular `Disabled = false` is stored as an absent field and read back
as `false`. -/
theorem decStorageHelper_enc (h : StorageHelper) :
    decStorageHelper (encStorageHelper h) = some h := by
  obtain ⟨d⟩ := h
  cases d <;>
    simp [decStorageHelper, encStorageHelper, encStorageHelperFields,
      getBoolD, fieldOmitBool, lookupField]

/-- A `BuiltInAdapter` round-trips through its persisted form. -/
theorem decBuiltInAdapter_enc (a : BuiltInAdapter) :
    decBuiltInAdapter (encBuiltInAdapter a) = some a := by
  have hst : getStrD (encBuiltInAdapterFields a) "serverType"
      = some a.ServerType.toString := by
    apply getStrD_ifOmit
    simp [encBuiltInAdapterFields, lookupField_append, lookupField_fieldOmitStr,
      lookupField_fieldOmitInt, Option.or_none, Option.none_or, lookupField]
  have h1 : getIntD (encBuiltInAdapterFields a) "runtimeManagementPort"
      = some a.RuntimeManagementPort := by
    apply getIntD_ifOmit
    simp [encBuiltInAdapterFields, lookupField_append, lookupField_fieldOmitStr,
      lookupField_fieldOmitInt, Option.or_none, Option.none_or, lookupField]
  have h2 : getIntD (encBuiltInAdapterFields a) "memBufferBytes"
      = some a.MemBufferBytes := by
    apply getIntD_ifOmit
    simp [encBuiltInAdapterFields, lookupField_append, lookupField_fieldOmitStr,
      lookupField_fieldOmitInt, Option.or_none, Option.none_or, lookupField]
  have h3 : getIntD (encBuiltInAdapterFields a) "modelLoadingTimeoutMillis"
      = some a.ModelLoadingTimeoutMillis := by
    apply getIntD_ifOmit
    simp [encBuiltInAdapterFields, lookupField_append, lookupField_fieldOmitStr,
      lookupField_fieldOmitInt, Option.or_none, Option.none_or, lookupField]
  have hparse : ServerType.parse a.ServerType.toString = some a.ServerType := by
    cases a.ServerType <;> rfl
  simp [decBuiltInAdapter, encBuiltInAdapter, hst, h1, h2, h3, hparse]

/-- Serialize a `ServingRuntimeSpec`.  The `ServingRuntimePodSpec` fields
are inlined (`json:",inline"`) at the position of the embedded struct;
`containers` has no `omitempty` and is always emitted. -/
def encServingRuntimeSpecFields (s : ServingRuntimeSpec) : List (String × Json) :=
  fieldOmitList "supportedModelTypes" (s.SupportedModelTypes.map encFramework) ++
  fieldOpt "disabled" (s.Disabled.map Json.bool) ++
  fieldAlways "containers" (Json.arr (s.PodSpec.Containers.map encContainer)) ++
  fieldOmitObj "nodeSelector" (s.PodSpec.NodeSelector.map (fun p => (p.1, Json.str p.2))) ++
  fieldOpt "affinity" s.PodSpec.Affinity ++
  fieldOmitList "tolerations" s.PodSpec.Tolerations ++
  fieldOpt "grpcEndpoint" (s.GrpcMultiModelManagementEndpoint.map Json.str) ++
  fieldOpt "grpcDataEndpoint" (s.GrpcDataEndpoint.map Json.str) ++
  fieldOpt "httpDataEndpoint" (s.HTTPDataEndpoint.map Json.str) ++
  fieldOpt "replicas" (s.Replicas.map (fun n => Json.num n.val)) ++
  fieldOpt "storageHelper" (s.StorageHelper.map encStorageHelper) ++
  fieldOpt "builtInAdapter" (s.BuiltInAdapter.map encBuiltInAdapter)

/-- The persisted document of a `ServingRuntimeSpec`. -/
def encServingRuntimeSpec (s : ServingRuntimeSpec) : Json :=
  Json.obj (encServingRuntimeSpecFields s)

/-- Deserialize a `ServingRuntimeSpec` from its persisted document. -/
def decServingRuntimeSpec : Json → Option ServingRuntimeSpec
  | Json.obj o => do
      let smtJson ← getJsonListD o "supportedModelTypes"
      let smt ← decList decFramework smtJson
      let dis ← getOptBool o "disabled"
      let contJson ← getJson o "containers"
      let cont ← match contJson with
        | Json.arr xs => decList decContainer xs
        | _ => none
      let ns ← getStrMapD o "nodeSelector"
      let aff ← getOptJson o "affinity"
      let tol ← getJsonListD o "tolerations"
      let grpcMM ← getOptStr o "grpcEndpoint"
      let grpcData ← getOptStr o "grpcDataEndpoint"
      let httpData ← getOptStr o "httpDataEndpoint"
      let repl ← getOptUint16 o "replicas"
      let sh ← match ← getOptJson o "storageHelper" with
        | none => some none
        | some j => (decStorageHelper j).map some
      let bia ← match ← getOptJson o "builtInAdapter" with
        | none => some none
        | some j => (decBuiltInAdapter j).map some
      some { SupportedModelTypes := smt, Disabled := dis
             PodSpec := { Containers := cont, NodeSelector := ns
                          Affinity := aff, Tolerations := tol }
             GrpcMultiModelManagementEndpoint := grpcMM
             GrpcDataEndpoint := grpcData, HTTPDataEndpoint := httpData
             Replicas := repl, StorageHelper := sh, BuiltInAdapter := bia }
  | _ => none

theorem decS_supportedModelTypes (s : ServingRuntimeSpec) :
    getJsonListD (encServingRuntimeSpecFields s) "supportedModelTypes"
      = some (s.SupportedModelTypes.map encFramework) := by
  apply getJsonListD_ifOmit
  simp [encServingRuntimeSpecFields, lookupField_append, lookupField_fieldAlways,
    lookupField_fieldOpt, lookupField_fieldOmitList, lookupField_fieldOmitObj,
    Option.or_none, Option.none_or, lookupField, isEmpty_map]

theorem decS_disabled (s : ServingRuntimeSpec) :
    getOptBool (encServingRuntimeSpecFields s) "disabled" = some s.Disabled := by
  apply getOptBool_of
  simp [encServingRuntimeSpecFields, lookupField_append, lookupField_fieldAlways,
    lookupField_fieldOpt, lookupField_fieldOmitList, lookupField_fieldOmitObj,
    Option.or_none, Option.none_or, lookupField]

theorem decS_containers (s : ServingRuntimeSpec) :
    getJson (encServingRuntimeSpecFields s) "containers"
      = some (Json.arr (s.PodSpec.Containers.map encContainer)) := by
  apply getJson_of
  simp [encServingRuntimeSpecFields, lookupField_append, lookupField_fieldAlways,
    lookupField_fieldOpt, lookupField_fieldOmitList, lookupField_fieldOmitObj,
    Option.or_none, Option.none_or, lookupField]

theorem decS_nodeSelector (s : ServingRuntimeSpec) :
    getStrMapD (encServingRuntimeSpecFields s) "nodeSelector"
      = some s.PodSpec.NodeSelector := by
  apply getStrMapD_ifOmit
  simp [encServingRuntimeSpecFields, lookupField_append, lookupField_fieldAlways,
    lookupField_fieldOpt, lookupField_fieldOmitList, lookupField_fieldOmitObj,
    Option.or_none, Option.none_or, lookupField, isEmpty_map]

theorem decS_affinity (s : ServingRuntimeSpec) :
    getOptJson (encServingRuntimeSpecFields s) "affinity"
      = some s.PodSpec.Affinity := by
  apply getOptJson_of
  simp [encServingRuntimeSpecFields, lookupField_append, lookupField_fieldAlways,
    lookupField_fieldOpt, lookupField_fieldOmitList, lookupField_fieldOmitObj,
    Option.or_none, Option.none_or, lookupField]

theorem decS_tolerations (s : ServingRuntimeSpec) :
    getJsonListD (encServingRuntimeSpecFields s) "tolerations"
      = some s.PodSpec.Tolerations := by
  apply getJsonListD_ifOmit
  simp [encServingRuntimeSpecFields, lookupField_append, lookupField_fieldAlways,
    lookupField_fieldOpt, lookupField_fieldOmitList, lookupField_fieldOmitObj,
    Option.or_none, Option.none_or, lookupField]

theorem decS_grpcEndpoint (s : ServingRuntimeSpec) :
    getOptStr (encServingRuntimeSpecFields s) "grpcEndpoint"
      = some s.GrpcMultiModelManagementEndpoint := by
  apply getOptStr_of
  simp [encServingRuntimeSpecFields, lookupField_append, lookupField_fieldAlways,
    lookupField_fieldOpt, lookupField_fieldOmitList, lookupField_fieldOmitObj,
    Option.or_none, Option.none_or, lookupField]

theorem decS_grpcDataEndpoint (s : ServingRuntimeSpec) :
    getOptStr (encServingRuntimeSpecFields s) "grpcDataEndpoint"
      = some s.GrpcDataEndpoint := by
  apply getOptStr_of
  simp [encServingRuntimeSpecFields, lookupField_append, lookupField_fieldAlways,
    lookupField_fieldOpt, lookupField_fieldOmitList, lookupField_fieldOmitObj,
    Option.or_none, Option.none_or, lookupField]

theorem decS_httpDataEndpoint (s : ServingRuntimeSpec) :
    getOptStr (encServingRuntimeSpecFields s) "httpDataEndpoint"
      = some s.HTTPDataEndpoint := by
  apply getOptStr_of
  simp [encServingRuntimeSpecFields, lookupField_append, lookupField_fieldAlways,
    lookupField_fieldOpt, lookupField_fieldOmitList, lookupField_fieldOmitObj,
    Option.or_none, Option.none_or, lookupField]

theorem decS_replicas (s : ServingRuntimeSpec) :
    getOptUint16 (encServingRuntimeSpecFields s) "replicas" = some s.Replicas := by
  apply getOptUint16_of
  simp [encServingRuntimeSpecFields, lookupField_append, lookupField_fieldAlways,
    lookupField_fieldOpt, lookupField_fieldOmitList, lookupField_fieldOmitObj,
    Option.or_none, Option.none_or, lookupField]

theorem decS_storageHelper (s : ServingRuntimeSpec) :
    getOptJson (encServingRuntimeSpecFields s) "storageHelper"
      = some (s.StorageHelper.map encStorageHelper) := by
  apply getOptJson_of
  simp [encServingRuntimeSpecFields, lookupField_append, lookupField_fieldAlways,
    lookupField_fieldOpt, lookupField_fieldOmitList, lookupField_fieldOmitObj,
    Option.or_none, Option.none_or, lookupField]

theorem decS_builtInAdapter (s : ServingRuntimeSpec) :
    getOptJson (encServingRuntimeSpecFields s) "builtInAdapter"
      = some (s.BuiltInAdapter.map encBuiltInAdapter) := by
  apply getOptJson_of
  simp [encServingRuntimeSpecFields, lookupField_append, lookupField_fieldAlways,
    lookupField_fieldOpt, lookupField_fieldOmitList, lookupField_fieldOmitObj,
    Option.or_none, Option.none_or, lookupField]

/-! ### Schema validation

Modelled from the spec: the Schema Validator (spec section 4.1) is not in
this excerpt of the repository; it is reconstructed from the spec's
checks, in the order the spec lists them: pod spec has at least one
container; all container names unique; container name and image
non-empty; framework version strings (if present) match the three-level
numeric pattern; endpoint strings (if present) parse as a port or unix
endpoint; a built-in adapter's server type equals the name of exactly one
container. -/

/-- A non-empty run of decimal digits (the regex `\d+`). -/
def digitsNonempty (l : List Char) : Bool :=
  !l.isEmpty && l.all Char.isDigit

/-- Split a character list at every dot. -/
def splitDot : List Char → List (List Char)
  | [] => [[]]
  | c :: rest =>
      if c = '.' then [] :: splitDot rest
      else
        match splitDot rest with
        | [] => [[c]]
        | p :: ps => (c :: p) :: ps

/-- The validator's version check: split on dots into at most three
components, each a non-empty run of digits. -/
def versionValid (v : String) : Bool :=
  let parts := splitDot v.toList
  decide (parts.length ≤ 3) && parts.all digitsNonempty

/-- The semantics of the regex `\d+` on a character list. -/
def DigitsStr (l : List Char) : Prop :=
  l ≠ [] ∧ ∀ c ∈ l, c.isDigit = true

/-- The semantics of the version regex from the spec,
`^\d+(\.\d+(\.\d+)?)?$`: a digit run, optionally followed by a dot and a
digit run, optionally followed by another dot and digit run. -/
def VersionPattern (v : String) : Prop :=
  (∃ a, DigitsStr a ∧ v.toList = a) ∨
  (∃ a b, DigitsStr a ∧ DigitsStr b ∧ v.toList = a ++ '.' :: b) ∨
  (∃ a b c, DigitsStr a ∧ DigitsStr b ∧ DigitsStr c ∧
    v.toList = a ++ '.' :: (b ++ '.' :: c))

/-- An endpoint string per the source comment: either like `port:1234`
or `unix:/tmp/mserve/grpc.sock` (a port number, or an absolute path). -/
def endpointValid (e : String) : Bool :=
  match e.toList with
  | 'p' :: 'o' :: 'r' :: 't' :: ':' :: rest => digitsNonempty rest
  | 'u' :: 'n' :: 'i' :: 'x' :: ':' :: rest =>
      (match rest with
       | '/' :: _ => true
       | _ => false)
  | _ => false

/-- A validation failure, reported for the first offending field. -/
inductive ValidationError where
  | missingContainer : ValidationError
  | duplicateName (n : String) : ValidationError
  | emptyName : ValidationError
  | emptyImage (n : String) : ValidationError
  | badVersion (fname v : String) : ValidationError
  | badEndpoint (e : String) : ValidationError
  | adapterMismatch (st : String) : ValidationError
deriving DecidableEq, Repr

/-- First name appearing twice in the list, if any. -/
def findDup : List String → Option String
  | [] => none
  | n :: rest => if rest.contains n then some n else findDup rest

/-- First container with an empty name or image, if any. -/
def findBadContainer : List Container → Option ValidationError
  | [] => none
  | c :: rest =>
      if c.Name = "" then some .emptyName
      else if c.Image = "" then some (.emptyImage c.Name)
      else findBadContainer rest

/-- First framework whose present version fails the version check. -/
def findBadVersion : List Framework → Option ValidationError
  | [] => none
  | f :: rest =>
      match f.Version with
      | none => findBadVersion rest
      | some v =>
          if versionValid v then findBadVersion rest
          else some (.badVersion f.Name v)

/-- First present endpoint that fails the endpoint check. -/
def findBadEndpoint : List (Option String) → Option ValidationError
  | [] => none
  | none :: rest => findBadEndpoint rest
  | some e :: rest =>
      if endpointValid e then findBadEndpoint rest
      else some (.badEndpoint e)

/-- The three ModelMesh endpoints of a spec, in declaration order. -/
def ServingRuntimeSpec.endpoints (s : ServingRuntimeSpec) : List (Option String) :=
  [s.GrpcMultiModelManagementEndpoint, s.GrpcDataEndpoint, s.HTTPDataEndpoint]

/-- The adapter-consistency check: when a built-in adapter is specified,
its server type must equal the name of exactly one container. -/
def adapterCheck (s : ServingRuntimeSpec) : Option ValidationError :=
  match s.BuiltInAdapter with
  | none => none
  | some a =>
      if (s.Containers.filter (fun c => c.Name = a.ServerType.toString)).length = 1
      then none
      else some (.adapterMismatch a.ServerType.toString)

/-- Modelled from the spec: the Schema Validator.  Accepts a candidate
`ServingRuntimeSpec` or rejects it with the first failing check's
error. -/
def validateSpec (s : ServingRuntimeSpec) : Except ValidationError Unit :=
  if s.Containers.isEmpty then .error .missingContainer
  else
    match findDup (s.Containers.map Container.Name) with
    | some n => .error (.duplicateName n)
    | none =>
        match findBadContainer s.Containers with
        | some e => .error e
        | none =>
            match findBadVersion s.SupportedModelTypes with
            | some e => .error e
            | none =>
                match findBadEndpoint s.endpoints with
                | some e => .error e
                | none =>
                    match adapterCheck s with
                    | some e => .error e
                    | none => .ok ()

/-! Equivalence of the split-based version check with the regex
semantics. -/

/-- Join character lists with dots; left inverse of `splitDot`. -/
def joinDots : List (List Char) → List Char
  | [] => []
  | [p] => p
  | p :: ps => p ++ '.' :: joinDots ps

theorem splitDot_ne_nil (l : List Char) : splitDot l ≠ [] := by
  cases l with
  | nil => simp [splitDot]
  | cons c rest =>
      by_cases h : c = '.'
      · simp [splitDot, h]
      · simp only [splitDot, if_neg h]
        cases splitDot rest <;> simp

theorem joinDots_splitDot (l : List Char) : joinDots (splitDot l) = l := by
  induction l with
  | nil => rfl
  | cons c rest ih =>
      by_cases h : c = '.'
      · subst h
        simp only [splitDot, if_pos rfl]
        cases hsr : splitDot rest with
        | nil => exact absurd hsr (splitDot_ne_nil rest)
        | cons q qs =>
            rw [hsr] at ih
            simp [joinDots, ih]
      · simp only [splitDot, if_neg h]
        cases hsr : splitDot rest with
        | nil => exact absurd hsr (splitDot_ne_nil rest)
        | cons q qs =>
            rw [hsr] at ih
            cases qs with
            | nil => simpa [joinDots] using congrArg (c :: ·) ih
            | cons q2 qs2 => simpa [joinDots] using congrArg (c :: ·) ih

theorem splitDot_no_dot (l : List Char) (h : ∀ c ∈ l, c ≠ '.') :
    splitDot l = [l] := by
  induction l with
  | nil => rfl
  | cons c rest ih =>
      have hc : c ≠ '.' := h c (by simp)
      have hrest : splitDot rest = [rest] := ih (fun x hx => h x (by simp [hx]))
      simp [splitDot, hc, hrest]

theorem splitDot_append_dot (a rest : List Char) (h : ∀ c ∈ a, c ≠ '.') :
    splitDot (a ++ '.' :: rest) = a :: splitDot rest := by
  induction a with
  | nil => simp [splitDot]
  | cons c a2 ih =>
      have hc : c ≠ '.' := h c (by simp)
      have h2 : splitDot (a2 ++ '.' :: rest) = a2 :: splitDot rest :=
        ih (fun x hx => h x (by simp [hx]))
      simp [splitDot, hc, h2]

theorem digitsNonempty_iff (l : List Char) :
    digitsNonempty l = true ↔ DigitsStr l := by
  simp [digitsNonempty, DigitsStr, List.isEmpty_iff]

theorem digit_ne_dot {c : Char} (h : c.isDigit = true) : c ≠ '.' := by
  intro he
  subst he
  simp [Char.isDigit] at h

theorem no_dot_of_digits {l : List Char} (h : ∀ c ∈ l, c.isDigit = true) :
    ∀ c ∈ l, c ≠ '.' :=
  fun c hc => digit_ne_dot (h c hc)

/-- The validator's version check accepts exactly the strings matched by
the regex `^\d+(\.\d+(\.\d+)?)?$`. -/
theorem versionValid_iff_pattern (v : String) :
    versionValid v = true ↔ VersionPattern v := by
  constructor
  · intro h
    unfold versionValid at h
    simp only [Bool.and_eq_true, decide_eq_true_eq, List.all_eq_true] at h
    obtain ⟨hlen, hall⟩ := h
    have hjoin := joinDots_splitDot v.toList
    unfold VersionPattern
    cases hsp : splitDot v.toList with
    | nil => exact absurd hsp (splitDot_ne_nil _)
    | cons a ps =>
        rw [hsp] at hjoin hlen hall
        cases ps with
        | nil =>
            left
            exact ⟨a, (digitsNonempty_iff a).mp (hall a (by simp)), by
              simpa [joinDots] using hjoin.symm⟩
        | cons b ps2 =>
            cases ps2 with
            | nil =>
                right; left
                refine ⟨a, b, (digitsNonempty_iff a).mp (hall a (by simp)),
                  (digitsNonempty_iff b).mp (hall b (by simp)), ?_⟩
                simpa [joinDots] using hjoin.symm
            | cons c ps3 =>
                cases ps3 with
                | nil =>
                    right; right
                    refine ⟨a, b, c, (digitsNonempty_iff a).mp (hall a (by simp)),
                      (digitsNonempty_iff b).mp (hall b (by simp)),
                      (digitsNonempty_iff c).mp (hall c (by simp)), ?_⟩
                    simpa [joinDots] using hjoin.symm
                | cons d ps4 => simp at hlen
  · intro h
    unfold versionValid
    simp only [Bool.and_eq_true, decide_eq_true_eq, List.all_eq_true]
    unfold VersionPattern at h
    rcases h with ⟨a, ha, hl⟩ | ⟨a, b, ha, hb, hl⟩ | ⟨a, b, c, ha, hb, hc, hl⟩
    · rw [hl, splitDot_no_dot a (no_dot_of_digits ha.2)]
      exact ⟨by simp, by
        intro x hx
        simp at hx
        subst hx
        exact (digitsNonempty_iff _).mpr ha⟩
    · rw [hl, splitDot_append_dot a _ (no_dot_of_digits ha.2),
        splitDot_no_dot b (no_dot_of_digits hb.2)]
      constructor
      · simp
      · intro x hx
        simp at hx
        rcases hx with hx | hx <;> subst hx
        · exact (digitsNonempty_iff _).mpr ha
        · exact (digitsNonempty_iff _).mpr hb
    · rw [hl, splitDot_append_dot a _ (no_dot_of_digits ha.2),
        splitDot_append_dot b _ (no_dot_of_digits hb.2),
        splitDot_no_dot c (no_dot_of_digits hc.2)]
      constructor
      · simp
      · intro x hx
        simp at hx
        rcases hx with hx | hx | hx <;> subst hx
        · exact (digitsNonempty_iff _).mpr ha
        · exact (digitsNonempty_iff _).mpr hb
        · exact (digitsNonempty_iff _).mpr hc

/-- Acceptance by the validator is exactly the conjunction of its six
checks. -/
theorem validateSpec_ok_iff (s : ServingRuntimeSpec) :
    validateSpec s = .ok () ↔
      (s.Containers.isEmpty = false ∧
       findDup (s.Containers.map Container.Name) = none ∧
       findBadContainer s.Containers = none ∧
       findBadVersion s.SupportedModelTypes = none ∧
       findBadEndpoint s.endpoints = none ∧
       adapterCheck s = none) := by
  unfold validateSpec
  by_cases h1 : s.Containers.isEmpty <;> simp [h1]
  cases h2 : findDup (s.Containers.map Container.Name) <;> simp [h2]
  cases h3 : findBadContainer s.Containers <;> simp [h3]
  cases h4 : findBadVersion s.SupportedModelTypes <;> simp [h4]
  cases h5 : findBadEndpoint s.endpoints <;> simp [h5]
  cases h6 : adapterCheck s <;> simp [h6]

/-- `findDup` finds nothing exactly on duplicate-free lists. -/
theorem findDup_eq_none_iff (l : List String) :
    findDup l = none ↔ l.Nodup := by
  induction l with
  | nil => simp [findDup]
  | cons n rest ih =>
      by_cases h : n ∈ rest
      · have hc : rest.contains n = true := by simpa using h
        simp [findDup, hc, h]
      · have hc : rest.contains n = false := by simpa using h
        simp [findDup, hc, h, ih]

/-- `findBadVersion` finds nothing exactly when every present version
passes the version check. -/
theorem findBadVersion_eq_none_iff (fs : List Framework) :
    findBadVersion fs = none ↔
      ∀ f ∈ fs, ∀ v, f.Version = some v → versionValid v = true := by
  induction fs with
  | nil => simp [findBadVersion]
  | cons f rest ih =>
      cases hv : f.Version with
      | none => simp [findBadVersion, hv, ih]
      | some v =>
          by_cases hok : versionValid v <;> simp [findBadVersion, hv, hok, ih]

/-- The spec with all framework versions removed: used to isolate the
version check from the other checks. -/
def stripVersions (s : ServingRuntimeSpec) : ServingRuntimeSpec :=
  { s with SupportedModelTypes :=
      s.SupportedModelTypes.map (fun f => { f with Version := none }) }

theorem findBadVersion_strip (fs : List Framework) :
    findBadVersion (fs.map (fun f => { f with Version := none })) = none := by
  induction fs <;> simp [findBadVersion, *]

/-! Concrete fixtures used to exercise the theorems. -/

/-- A minimal container with the given name and image. -/
def mkContainer (n im : String) : Container :=
  { Name := n, Image := im, Command := [], Args := [], Resources := Json.obj []
    Env := [], ImagePullPolicy := "", WorkingDir := "", LivenessProbe := none
    ReadinessProbe := none }

/-- A minimal spec holding the given containers. -/
def baseSpec (cs : List Container) : ServingRuntimeSpec :=
  { SupportedModelTypes := [], Disabled := none
    PodSpec := { Containers := cs, NodeSelector := [], Affinity := none
                 Tolerations := [] }
    GrpcMultiModelManagementEndpoint := none, GrpcDataEndpoint := none
    HTTPDataEndpoint := none, Replicas := none, StorageHelper := none
    BuiltInAdapter := none }

/-- A triton adapter with zeroed numeric fields. -/
def adapterTriton : BuiltInAdapter :=
  { ServerType := .triton, RuntimeManagementPort := 0, MemBufferBytes := 0
    ModelLoadingTimeoutMillis := 0 }

/-- A spec whose adapter says `triton` but whose only container is named
`mlserver`. -/
def specMismatch : ServingRuntimeSpec :=
  { baseSpec [mkContainer "mlserver" "img"] with BuiltInAdapter := some adapterTriton }

/-- A spec whose adapter says `triton` and whose only container is named
`triton`. -/
def specMatch : ServingRuntimeSpec :=
  { baseSpec [mkContainer "triton" "img"] with BuiltInAdapter := some adapterTriton }

/-- A spec supporting one framework at version `1.2.3`. -/
def specV123 : ServingRuntimeSpec :=
  { baseSpec [mkContainer "c" "img"] with
      SupportedModelTypes := [{ Name := "f", Version := some "1.2.3" }] }

/-- A `ServingRuntimeSpec` round-trips through its persisted form. -/
theorem decServingRuntimeSpec_enc (s : ServingRuntimeSpec) :
    decServingRuntimeSpec (encServingRuntimeSpec s) = some s := by
  obtain ⟨smt, dis, ⟨cont, ns, aff, tol⟩, g1, g2, g3, repl, sh, bia⟩ := s
  cases sh <;> cases bia <;>
    simp [decServingRuntimeSpec, encServingRuntimeSpec, decS_supportedModelTypes,
      decS_disabled, decS_containers, decS_nodeSelector, decS_affinity,
      decS_tolerations, decS_grpcEndpoint, decS_grpcDataEndpoint,
      decS_httpDataEndpoint, decS_replicas, decS_storageHelper,
      decS_builtInAdapter, decList_map_of _ _ decFramework_enc,
      decList_map_of _ _ decContainer_enc, decStorageHelper_enc,
      decBuiltInAdapter_enc]

/-! ### The claims -/

/-- C1: for every `ServingRuntimeSpec`, `IsDisabled()` returns true iff
the `Disabled` pointer is non-null and points to true; it returns false
when `Disabled` is unset (null) and false when `Disabled` points to
false. -/
theorem claim_C1 (s : ServingRuntimeSpec) :
    (s.IsDisabled = true ↔ s.Disabled = some true) ∧
    (s.Disabled = none → s.IsDisabled = false) ∧
    (s.Disabled = some false → s.IsDisabled = false) := by
  unfold ServingRuntimeSpec.IsDisabled
  rcases hd : s.Disabled with _ | b
  · simp
  · cases b <;> simp

/-- Witness for C1: at a spec with `Disabled` unset, `IsDisabled` is
false. -/
theorem claim_C1_witness : (baseSpec []).IsDisabled = false :=
  (claim_C1 (baseSpec [])).2.1 rfl

/-- C2: serializing a `ServingRuntimeSpec` to its persisted JSON form and
deserializing back yields the spec unchanged, field for field; in
particular the unset-vs-explicitly-false state of `Disabled`
(a `*bool`) survives the trip, and `StorageHelper.Disabled` (a plain
`bool` whose `false` is stored as an absent field) reads back as
`false`. -/
theorem claim_C2 (s : ServingRuntimeSpec) :
    decServingRuntimeSpec (encServingRuntimeSpec s) = some s :=
  decServingRuntimeSpec_enc s

/-- C3: any spec whose container list is empty is rejected with the
missing-container error. -/
theorem claim_C3 (s : ServingRuntimeSpec) (h : s.Containers = []) :
    validateSpec s = .error .missingContainer := by
  unfold validateSpec
  simp [h]

/-- Witness for C3: the empty spec is rejected with the
missing-container error. -/
theorem claim_C3_witness : validateSpec (baseSpec []) = .error .missingContainer :=
  claim_C3 (baseSpec []) rfl

/-- C4: a spec with a repeated container name is rejected with a
duplicate-name error, and an accepted spec has pairwise-distinct
container names. -/
theorem claim_C4 (s : ServingRuntimeSpec) :
    (¬ (s.Containers.map Container.Name).Nodup →
      ∃ n, validateSpec s = .error (.duplicateName n)) ∧
    (validateSpec s = .ok () → (s.Containers.map Container.Name).Nodup) := by
  constructor
  · intro hdup
    have hisE : s.Containers.isEmpty = false := by
      cases hC : s.Containers with
      | nil => rw [hC] at hdup; simp at hdup
      | cons c rest => rfl
    have hfd : findDup (s.Containers.map Container.Name) ≠ none := by
      rw [Ne, findDup_eq_none_iff]
      exact hdup
    obtain ⟨n, hn⟩ := Option.ne_none_iff_exists'.mp hfd
    refine ⟨n, ?_⟩
    unfold validateSpec
    simp [hisE, hn]
  · intro hok
    exact (findDup_eq_none_iff _).mp ((validateSpec_ok_iff s).mp hok).2.1

/-- Witness for C4: a spec with two containers named `a` is rejected
with a duplicate-name error. -/
theorem claim_C4_witness :
    ∃ n, validateSpec (baseSpec [mkContainer "a" "i", mkContainer "a" "i"])
      = .error (.duplicateName n) :=
  (claim_C4 (baseSpec [mkContainer "a" "i", mkContainer "a" "i"])).1 (by simp [baseSpec, mkContainer, ServingRuntimeSpec.Containers])

/-- C5: with every other check held fixed, validation accepts a spec
exactly when each present `Framework.Version` matches the regex
`^\d+(\.\d+(\.\d+)?)?$` (major, major.minor, or major.minor.patch). -/
theorem claim_C5 (s : ServingRuntimeSpec) :
    validateSpec s = .ok () ↔
      (validateSpec (stripVersions s) = .ok () ∧
       ∀ f ∈ s.SupportedModelTypes, ∀ v, f.Version = some v → VersionPattern v) := by
  rw [validateSpec_ok_iff, validateSpec_ok_iff]
  have hC : (stripVersions s).Containers = s.Containers := rfl
  have hE : (stripVersions s).endpoints = s.endpoints := rfl
  have hA : adapterCheck (stripVersions s) = adapterCheck s := rfl
  have hS : (stripVersions s).SupportedModelTypes =
      s.SupportedModelTypes.map (fun f => { f with Version := none }) := rfl
  rw [hC, hE, hA, hS, findBadVersion_strip, findBadVersion_eq_none_iff]
  constructor
  · rintro ⟨he, hd, hb, hv, hep, ha⟩
    exact ⟨⟨he, hd, hb, rfl, hep, ha⟩,
      fun f hf v hfv => (versionValid_iff_pattern v).mp (hv f hf v hfv)⟩
  · rintro ⟨⟨he, hd, hb, _, hep, ha⟩, hv⟩
    exact ⟨he, hd, hb,
      fun f hf v hfv => (versionValid_iff_pattern v).mpr (hv f hf v hfv), hep, ha⟩

/-- Witness for C5: the accepted spec with version `1.2.3` yields that
`1.2.3` matches the version pattern. -/
theorem claim_C5_witness : VersionPattern "1.2.3" :=
  ((claim_C5 specV123).mp rfl).2 { Name := "f", Version := some "1.2.3" }
    (by simp [specV123]) "1.2.3" rfl

/-- C6: `ServerType` is a closed enumeration with exactly the members
`triton` and `mlserver`; parsing a stored string succeeds exactly on
those two members, and deserializing a `BuiltInAdapter` whose
`serverType` is any other string is rejected. -/
theorem claim_C6 :
    (∀ t : ServerType, t = .triton ∨ t = .mlserver) ∧
    (∀ (w : String) (t : ServerType),
      ServerType.parse w = some t ↔
        ((w = "triton" ∧ t = .triton) ∨ (w = "mlserver" ∧ t = .mlserver))) ∧
    decBuiltInAdapter (Json.obj [("serverType", Json.str "other")]) = none := by
  refine ⟨fun t => by cases t <;> simp, fun w t => ?_, rfl⟩
  constructor
  · intro h
    by_cases h1 : w = "triton"
    · subst h1
      simp [ServerType.parse] at h
      exact Or.inl ⟨rfl, h.symm⟩
    · by_cases h2 : w = "mlserver"
      · subst h2
        simp [ServerType.parse] at h
        exact Or.inr ⟨rfl, h.symm⟩
      · exfalso
        unfold ServerType.parse at h
        split at h
        · exact h1 rfl
        · exact h2 rfl
        · exact Option.noConfusion h
  · rintro (⟨hw, ht⟩ | ⟨hw, ht⟩) <;> subst hw <;> subst ht <;> rfl

/-- C7: when a built-in adapter is present, an accepted spec has exactly
one container whose name equals the adapter's server type; in
particular the spec with a `triton` adapter and a single `mlserver`
container is rejected with an adapter-mismatch error. -/
theorem claim_C7 :
    (∀ (s : ServingRuntimeSpec) (a : BuiltInAdapter), s.BuiltInAdapter = some a →
      validateSpec s = .ok () →
      (s.Containers.filter (fun c => c.Name = a.ServerType.toString)).length = 1) ∧
    validateSpec specMismatch = .error (.adapterMismatch "triton") := by
  constructor
  · intro s a ha hok
    have hac : adapterCheck s = none := ((validateSpec_ok_iff s).mp hok).2.2.2.2.2
    unfold adapterCheck at hac
    rw [ha] at hac
    by_cases hlen :
        (s.Containers.filter (fun c => c.Name = a.ServerType.toString)).length = 1
    · exact hlen
    · simp [hlen] at hac
  · rfl

/-- Witness for C7: the matching spec (adapter `triton`, one container
named `triton`) is accepted and indeed has exactly one container named
`triton`. -/
theorem claim_C7_witness :
    (specMatch.Containers.filter
      (fun c => c.Name = adapterTriton.ServerType.toString)).length = 1 :=
  claim_C7.1 specMatch adapterTriton rfl rfl

/-- C8: both resource kinds carry the identical spec/status pair: every
pair is representable in each kind, and repackaging between the kinds
preserves every field. -/
theorem claim_C8 (sp : ServingRuntimeSpec) (st : ServingRuntimeStatus) :
    (∃ r : ServingRuntime, r.Spec = sp ∧ r.Status = st) ∧
    (∃ c : ClusterServingRuntime, c.Spec = sp ∧ c.Status = st) ∧
    (∀ r : ServingRuntime, r.toCluster.Spec = r.Spec ∧
      r.toCluster.Status = r.Status ∧ r.toCluster.toNamespaced = r) ∧
    (∀ c : ClusterServingRuntime, c.toNamespaced.Spec = c.Spec ∧
      c.toNamespaced.Status = c.Status ∧ c.toNamespaced.toCluster = c) :=
  ⟨⟨⟨Json.null, Json.null, sp, st⟩, rfl, rfl⟩,
   ⟨⟨Json.null, Json.null, sp, st⟩, rfl, rfl⟩,
   fun _ => ⟨rfl, rfl, rfl⟩,
   fun _ => ⟨rfl, rfl, rfl⟩⟩

/-- C9: the storage helper counts as enabled whenever `StorageHelper` is
absent; it is disabled exactly when `StorageHelper` is present with
`Disabled = true`. -/
theorem claim_C9 (s : ServingRuntimeSpec) :
    (s.StorageHelper = none → s.storageHelperDisabled = false) ∧
    (s.storageHelperDisabled = true ↔
      ∃ h, s.StorageHelper = some h ∧ h.Disabled = true) := by
  unfold ServingRuntimeSpec.storageHelperDisabled
  rcases hs : s.StorageHelper with _ | h
  · simp
  · simp

/-- Witness for C9: at a spec without a storage helper, the helper is
enabled. -/
theorem claim_C9_witness : (baseSpec []).storageHelperDisabled = false :=
  (claim_C9 (baseSpec [])).1 rfl

/-- C10: evaluating the body of `IsDisabled` under the Go model never
panics: the nil check short-circuits the conjunction, and the call
always returns the accessor's value. -/
theorem claim_C10 (s : ServingRuntimeSpec) :
    s.isDisabledEval = GoEval.ok s.IsDisabled := by
  unfold ServingRuntimeSpec.isDisabledEval ServingRuntimeSpec.IsDisabled
  rcases s.Disabled with _ | b
  · rfl
  · rfl

end KServeV1alpha1
